import Mathlib

/-!
Shallow embedding of the CV-outreach automation system
(`run_system.py`, `visited_links_manager.py`, `clean_emails.py`).

Conventions of the embedding:
* Python dicts become association lists (`List (key × value)`); lookup is
  first-occurrence (`List.lookup`), assignment replaces the first binding or
  appends, deletion erases the first binding.  All operations in the source
  keep keys unique, so first-occurrence semantics coincides with dict
  semantics there.
* Scalar values stored in a visit-entry dict are modelled by `PyVal`:
  `PyVal.i` for integers and for parseable timestamps (time is modelled as an
  integer count of days), `PyVal.s` for other strings (a `PyVal.s` used where
  a timestamp is expected models an un-parseable timestamp).
* `datetime.now()` becomes an explicit `now` argument; `timedelta(days = d)`
  becomes integer subtraction on day counts.
* Python exceptions escaping a function are modelled with `Option`
  (`none` = the call raises); functions that cannot raise stay total.
* Pandas data frames backed by the two CSV files become lists of rows kept in
  insertion order, which is exactly what the code relies on
  (`head`, `isin`-filtering and `concat` all preserve row order).
-/

namespace CVAuto

/-- Scalar values a visit-entry dict can hold (integers / day-granularity
timestamps vs. other strings). -/
inductive PyVal where
  | i (n : Int)
  | s (t : String)
deriving DecidableEq, Repr

/-- A Python dict from string keys to scalars, as an association list. -/
abbrev Dict := List (String × PyVal)

/-- The `visited_links` store: normalized URL ↦ visit-entry dict. -/
abbrev LinksMap := List (String × Dict)

/-- Dict assignment `m[k] = v`: replace the first binding of `k`, or append. -/
def assocSet (m : List (String × α)) (k : String) (v : α) : List (String × α) :=
  match m with
  | [] => [(k, v)]
  | (k', v') :: rest => if k' = k then (k, v) :: rest else (k', v') :: assocSet rest k v

/-- Dict deletion `del m[k]`: erase the first binding of `k`. -/
def assocErase (m : List (String × α)) (k : String) : List (String × α) :=
  match m with
  | [] => []
  | (k', v') :: rest => if k' = k then rest else (k', v') :: assocErase rest k

/-- Python `d.update(m)`: the resulting mapping gives `m`'s value wherever `m`
binds the key and `d`'s value otherwise.  (The association list produced here
lists `m` first; only the mapping, not the physical order, is observable in
the source via lookups.) -/
def dictUpdate (d m : Dict) : Dict :=
  m ++ d.filter (fun p => (List.lookup p.1 m).isNone)

/-- Python `str.lower()` (ASCII range; all inputs in the repository are ASCII
URLs and addresses). -/
def asciiLower (s : String) : String :=
  ⟨s.data.map Char.toLower⟩

/-- Python `str.strip()`: drop whitespace from both ends. -/
def pyStrip (s : String) : String :=
  ⟨((s.data.dropWhile Char.isWhitespace).reverse.dropWhile Char.isWhitespace).reverse⟩

/-- Python `str.rstrip('/')`: drop every trailing `'/'`. -/
def rstripSlashes (s : String) : String :=
  ⟨(s.data.reverse.dropWhile (· == '/')).reverse⟩

/-- Model of `VisitedLinksManager._normalize_url`: empty input maps to the empty key;
otherwise lower-case, strip whitespace, `rstrip('/')`, and if a `'?'` is
present keep only the part before the first `'?'` (`split('?')[0]`). -/
def _normalize_url (url : String) : String :=
  if url = "" then ""
  else
    let normalized := rstripSlashes (pyStrip (asciiLower url))
    if normalized.data.contains '?' then ⟨normalized.data.takeWhile (· != '?')⟩
    else normalized

/-- Model of `VisitedLinksManager._is_expired` for a stored timestamp value:
`expire_days <= 0` never expires; a parseable timestamp is expired when it is
older than `now - expire_days`; an un-parseable one counts as expired. -/
def _is_expired (expire_days now : Int) (v : PyVal) : Bool :=
  if expire_days ≤ 0 then false
  else
    match v with
    | .i t => decide (t < now - expire_days)
    | .s _ => true

/-- Model of `entry.get('timestamp', '')`. -/
def getTimestamp (entry : Dict) : PyVal :=
  (List.lookup "timestamp" entry).getD (.s "")

/-- Model of `VisitedLinksManager.is_link_visited`, returning the boolean answer
together with the (possibly shrunk) store: absent or falsy entry ⇒ `false`;
present but expired ⇒ evict and `false`; otherwise `true`. -/
def is_link_visited (links : LinksMap) (expire_days now : Int) (url : String) :
    Bool × LinksMap :=
  let key := _normalize_url url
  if key = "" then (false, links)
  else
    match List.lookup key links with
    | none => (false, links)
    | some entry =>
      if entry = [] then (false, links)
      else if _is_expired expire_days now (getTimestamp entry) then
        (false, assocErase links key)
      else (true, links)

/-- Python `x + 1` on a value read from a dict: raises (`none`) unless the
value is an integer. -/
def pyAdd1 : PyVal → Option PyVal
  | .i n => some (.i (n + 1))
  | .s _ => none

/-- Model of `VisitedLinksManager.mark_link_visited`: empty key ⇒ unchanged; otherwise
build `{timestamp, scraper, visit_count := previous + 1}`, overlay the caller
metadata with `dict.update`, and store the entry under the key.  `none` models
the `TypeError` raised when a previously stored `visit_count` is not an
integer. -/
def mark_link_visited (links : LinksMap) (now : Int) (url scraper : String)
    (metadata : Option Dict) : Option LinksMap :=
  let key := _normalize_url url
  if key = "" then some links
  else
    let prev : Dict := (List.lookup key links).getD []
    match pyAdd1 ((List.lookup "visit_count" prev).getD (.i 0)) with
    | none => none
    | some cnt =>
      let visit_data : Dict :=
        [("timestamp", .i now), ("scraper", .s scraper), ("visit_count", cnt)]
      let visit_data :=
        match metadata with
        | none => visit_data
        | some m => dictUpdate visit_data m
      some (assocSet links key visit_data)

/-- Character test for the regex class `[a-zA-Z]`. -/
def isAlphaChar (c : Char) : Bool :=
  ('a' ≤ c && c ≤ 'z') || ('A' ≤ c && c ≤ 'Z')

/-- Character test for the regex class `[a-zA-Z0-9._%+-]` (local part). -/
def isLocalChar (c : Char) : Bool :=
  isAlphaChar c || ('0' ≤ c && c ≤ '9') || c == '.' || c == '_' || c == '%' ||
    c == '+' || c == '-'

/-- Character test for the regex class `[a-zA-Z0-9.-]` (domain part). -/
def isDomainChar (c : Char) : Bool :=
  isAlphaChar c || ('0' ≤ c && c ≤ '9') || c == '.' || c == '-'

/-- Prefix test on character lists (first list is a prefix of the second). -/
def leadsWith : List Char → List Char → Bool
  | [], _ => true
  | _ :: _, [] => false
  | a :: as, b :: bs => a == b && leadsWith as bs

/-- Python `p in s` on strings: `p` occurs as a contiguous substring of `s`. -/
def hasSub (p : List Char) : List Char → Bool
  | [] => leadsWith p []
  | s@(_ :: rest) => leadsWith p s || hasSub p rest

/-- Model of `re.match(r'^[a-zA-Z0-9._%+-]+@[a-zA-Z0-9.-]+\.[a-zA-Z]\x7b2,\x7d$', s)`:
a match exists iff `s = local ++ "@" ++ mid ++ "." ++ tld` with `local` a
non-empty run of local characters, `mid` a non-empty run of domain characters
and `tld` at least two alphabetic characters.  Since neither class contains
`'@'`, `local` must be everything before the first `'@'`; since `tld` may not
contain `'.'`, the only candidate split of the domain is at its last `'.'`. -/
def matchesEmailPattern (s : List Char) : Bool :=
  let l := s.takeWhile (· != '@')
  if l.length = s.length then false
  else
    let r := s.drop (l.length + 1)
    let t := (r.reverse.takeWhile (· != '.')).reverse
    if t.length = r.length then false
    else
      let m := r.take (r.length - t.length - 1)
      decide (l ≠ []) && l.all isLocalChar &&
        decide (m ≠ []) && m.all isDomainChar &&
        t.all isAlphaChar && decide (2 ≤ t.length)

/-- Denylist of `CVAutomationSystem.validate_email` (`rejected_patterns`). -/
def rejected_patterns : List String :=
  ["noreply", "no-reply", "donotreply", "do-not-reply",
   "test", "example", "localhost", "admin@",
   ".comp", ".comcall", ".co.uk.", ".sa.", ".ae."]

/-- Model of `CVAutomationSystem.validate_email`: reject when empty or without
`'@'`; reject when any denylist pattern occurs in the lower-cased address;
otherwise accept iff the structural regex matches the original address. -/
def validate_email (email : String) : Bool :=
  if email = "" || !email.data.contains '@' then false
  else
    let email_lower := asciiLower email
    if rejected_patterns.any (fun p => hasSub p.data email_lower.data) then false
    else matchesEmailPattern email.data

/-- One row of `companies_emails.csv`. -/
structure CompanyRow where
  company_name : String
  email : String
  source_url : String
  city : String
  country : String
deriving DecidableEq, Repr

/-- One row of `sent_emails.csv`. -/
structure SentRow where
  email : String
  company_name : String
  sent_date : String
  status : String
deriving DecidableEq, Repr

/-- The durable state of `CVAutomationSystem`: the two CSV files as row lists
in insertion order. -/
structure SysState where
  companies : List CompanyRow
  sent : List SentRow
deriving DecidableEq, Repr

/-- Column `sent_df['email'].tolist()`. -/
def sentEmails (s : SysState) : List String :=
  s.sent.map (·.email)

/-- Rows of the companies file whose email is not in the sent file
(`companies_df[~companies_df['email'].isin(sent_emails)]`). -/
def pendingRows (s : SysState) : List CompanyRow :=
  s.companies.filter (fun c => !(sentEmails s).contains c.email)

/-- Model of `CVAutomationSystem.get_unsent_emails`: the first `limit` pending
rows, in file (= insertion) order.  The function only reads the two files; it
records nothing. -/
def get_unsent_emails (s : SysState) (limit : Nat) : List CompanyRow :=
  (pendingRows s).take limit

/-- Model of `CVAutomationSystem.mark_email_as_sent`: unconditionally append
one outcome row to `sent_emails.csv` (`sent_date` is `datetime.now()`, passed
here as `now`). -/
def mark_email_as_sent (s : SysState) (email company_name status now : String) :
    SysState :=
  { s with sent := s.sent ++ [⟨email, company_name, now, status⟩] }

/-- A candidate company handed to `save_companies_to_csv`. -/
structure InCompany where
  name : String
  email : String
  url : String
deriving DecidableEq, Repr

/-- Model of `CVAutomationSystem.get_country_from_city`. -/
def get_country_from_city (city : String) : String :=
  let saudi := ["الرياض", "جدة", "الدمام", "مكة المكرمة", "المدينة المنورة",
    "الطائف", "تبوك", "الأحساء", "بريدة", "خميس مشيط"]
  let uae := ["دبي", "أبوظبي", "الشارقة", "عجمان", "الفجيرة", "رأس الخيمة",
    "أم القيوين"]
  let kuwait := ["الكويت", "الأحمدي", "الفروانية", "الجهراء", "حولي",
    "مبارك الكبير"]
  let jordan := ["عمان", "الزرقاء", "إربد", "الرصيفة", "الطفيلة", "الكرك",
    "معان", "العقبة"]
  let oman := ["مسقط", "صلالة", "نزوى", "صور", "صحار", "الرستاق", "البريمي"]
  if saudi.contains city then "السعودية"
  else if uae.contains city then "الإمارات"
  else if kuwait.contains city then "الكويت"
  else if jordan.contains city then "الأردن"
  else if oman.contains city then "عمان"
  else "غير محدد"

/-- Model of `CVAutomationSystem.save_companies_to_csv`: each candidate whose
email already occurs in the companies file read at the start of the call is
skipped; all the others are appended.  The duplicate check consults only the
rows present before the call, never the rows accumulated during it. -/
def save_companies_to_csv (s : SysState) (companies : List InCompany)
    (city : String) : SysState :=
  let df := s.companies
  let new_data :=
    (companies.filter (fun c => !(df.map (·.email)).contains c.email)).map
      (fun c => CompanyRow.mk c.name c.email c.url city (get_country_from_city city))
  { s with companies := df ++ new_data }

/-- Model of `CVAutomationSystem.send_emails_job`: claim up to 30 pending rows
and record an outcome row for each, `"sent"` or `"failed"` according to the
delivery outcome (`send_email` is external I/O, abstracted as `sendOk`). -/
def send_emails_job (s : SysState) (sendOk : CompanyRow → Bool) (now : String) :
    SysState :=
  (get_unsent_emails s 30).foldl
    (fun st c =>
      mark_email_as_sent st c.email c.company_name
        (if sendOk c then "sent" else "failed") now)
    s

/-- The mutating public operations of `CVAutomationSystem`. -/
inductive SysOp where
  | ingest (companies : List InCompany) (city : String)
  | report (email company_name status now : String)
  | dispatch (sendOk : CompanyRow → Bool) (now : String)

/-- Apply one operation to the system state. -/
def applyOp (s : SysState) : SysOp → SysState
  | .ingest companies city => save_companies_to_csv s companies city
  | .report email company_name status now =>
      mark_email_as_sent s email company_name status now
  | .dispatch sendOk now => send_emails_job s sendOk now

/-- Apply a sequence of operations, oldest first. -/
def applyOps (s : SysState) (ops : List SysOp) : SysState :=
  ops.foldl applyOp s

/-- Outcome of reading one backing-storage file: the file may be missing,
unreadable or un-parseable, or parsed JSON in which the expected field is
absent (`parsed none`) or present with a stored mapping (`parsed (some m)`). -/
inductive BackingFile (α : Type) where
  | missing
  | unreadable
  | parsed (field : Option α)

/-- Model of `VisitedLinksManager._load_visited_links`: missing, unreadable and
field-less files all load as the empty store; a well-formed snapshot loads its
stored mapping unchanged.  Totality of the function is the "never raises to
the caller" guarantee (the `except` clause only logs). -/
def _load_visited_links : BackingFile LinksMap → LinksMap
  | .missing => []
  | .unreadable => []
  | .parsed none => []
  | .parsed (some m) => m

/-- Model of `VisitedLinksManager._load_visited_companies` (same fail-open shape). -/
def _load_visited_companies : BackingFile LinksMap → LinksMap
  | .missing => []
  | .unreadable => []
  | .parsed none => []
  | .parsed (some m) => m

/-- Model of `VisitedLinksManager._load_visited_searches` (same fail-open shape). -/
def _load_visited_searches : BackingFile LinksMap → LinksMap
  | .missing => []
  | .unreadable => []
  | .parsed none => []
  | .parsed (some m) => m

/-- Modelled from the spec's words for `normalizeLink` ("lower-cases, trims
whitespace, strips a single trailing path separator, and strips everything
from the first question mark onward"), for comparison with the source's
`_normalize_url`: the difference under test is that this version removes at
most one trailing separator. -/
def specNormalizeLink (url : String) : String :=
  let t := pyStrip (asciiLower url)
  let t := if t.data.getLast? = some '/' then (⟨t.data.dropLast⟩ : String) else t
  ⟨t.data.takeWhile (· != '?')⟩

/-- The spec's `normalizeLink` pipeline amended to strip every trailing path
separator (the only change the counterexample forces). -/
def specNormalizeLinkAmended (url : String) : String :=
  ⟨(rstripSlashes (pyStrip (asciiLower url))).data.takeWhile (· != '?')⟩

/-- Number of rows of the companies file carrying a given address. -/
def countCompanyRows (rows : List CompanyRow) (e : String) : Nat :=
  (rows.filter (fun c => c.email == e)).length

/-- Number of outcome rows recorded for a given address. -/
def countSentRows (s : SysState) (e : String) : Nat :=
  (s.sent.filter (fun r => r.email == e)).length

/-- A concrete companies-file row used by the counterexamples and witnesses. -/
def exRow (name e : String) : CompanyRow :=
  ⟨name, e, "https://" ++ e, "Riyadh", "غير محدد"⟩

/-- Concrete ledger state with five pending records and no recorded
outcome. -/
def exState5 : SysState :=
  { companies :=
      [exRow "A" "a@x.com", exRow "B" "b@x.com", exRow "C" "c@x.com",
       exRow "D" "d@x.com", exRow "E" "e@x.com"],
    sent := [] }

/-- The claim-then-report-all scenario from the spec's claim-exclusivity
property, as the code actually realizes it (compare `send_emails_job`): fetch
a batch of 3 with `get_unsent_emails` and record a successful outcome for
each returned row. -/
def claimThenReportAll (s : SysState) (now : String) : SysState :=
  (get_unsent_emails s 3).foldl
    (fun st c => mark_email_as_sent st c.email c.company_name "sent" now) s

/-! Helper lemmas about the dict model. -/

theorem lookup_assocSet_self {α : Type} (m : List (String × α)) (k : String) (v : α) :
    List.lookup k (assocSet m k v) = some v := by
  induction m with
  | nil => simp [assocSet, List.lookup]
  | cons p rest ih =>
    obtain ⟨k', v'⟩ := p
    by_cases h : k' = k
    · simp [assocSet, h, List.lookup]
    · simp only [assocSet, if_neg h, List.lookup,
        beq_eq_false_iff_ne.mpr (fun he => h he.symm)]
      exact ih

theorem length_assocSet_of_none {α : Type} (m : List (String × α)) (k : String) (v : α)
    (h : List.lookup k m = none) : (assocSet m k v).length = m.length + 1 := by
  induction m with
  | nil => simp [assocSet]
  | cons p rest ih =>
    obtain ⟨k', v'⟩ := p
    by_cases hk : k' = k
    · subst hk
      simp [List.lookup] at h
    · have hne : (k == k') = false := beq_eq_false_iff_ne.mpr (fun he => hk he.symm)
      simp only [List.lookup, hne] at h
      simp only [assocSet, if_neg hk, List.length_cons, ih h]

theorem length_assocSet_of_some {α : Type} (m : List (String × α)) (k : String) (v w : α)
    (h : List.lookup k m = some w) : (assocSet m k v).length = m.length := by
  induction m with
  | nil => simp [List.lookup] at h
  | cons p rest ih =>
    obtain ⟨k', v'⟩ := p
    by_cases hk : k' = k
    · simp [assocSet, hk]
    · have hne : (k == k') = false := beq_eq_false_iff_ne.mpr (fun he => hk he.symm)
      simp only [List.lookup, hne] at h
      simp only [assocSet, if_neg hk, List.length_cons, ih h]

theorem length_assocErase_of_some {α : Type} (m : List (String × α)) (k : String) (w : α)
    (h : List.lookup k m = some w) : (assocErase m k).length + 1 = m.length := by
  induction m with
  | nil => simp [List.lookup] at h
  | cons p rest ih =>
    obtain ⟨k', v'⟩ := p
    by_cases hk : k' = k
    · simp [assocErase, hk]
    · have hne : (k == k') = false := beq_eq_false_iff_ne.mpr (fun he => hk he.symm)
      simp only [List.lookup, hne] at h
      simp only [assocErase, if_neg hk, List.length_cons, ih h]

theorem lookup_append_of_some {α : Type} (m r : List (String × α)) (k : String) (v : α)
    (h : List.lookup k m = some v) : List.lookup k (m ++ r) = some v := by
  induction m with
  | nil => simp [List.lookup] at h
  | cons p rest ih =>
    obtain ⟨k', v'⟩ := p
    by_cases hk : k = k'
    · simp_all [List.lookup]
    · have hne : (k == k') = false := beq_eq_false_iff_ne.mpr hk
      simp only [List.lookup, hne] at h
      simp only [List.cons_append, List.lookup, hne]
      exact ih h

theorem takeWhile_of_not_contains (c : Char) (l : List Char)
    (h : l.contains c = false) : l.takeWhile (· != c) = l := by
  induction l with
  | nil => rfl
  | cons a as ih =>
    simp only [List.contains_cons, Bool.or_eq_false_iff] at h
    have hac : (a == c) = false :=
      beq_eq_false_iff_ne.mpr (fun he => (beq_eq_false_iff_ne.mp h.1) he.symm)
    simp [List.takeWhile_cons, bne, hac, ih h.2]
    intro x hx he
    have hct : c ∈ as := he ▸ hx
    have h2 : c ∉ as := by simpa using h.2
    exact h2 hct

/-! Helper lemmas about the ledger state. -/

theorem sentEmails_mark (s : SysState) (e n st now : String) :
    sentEmails (mark_email_as_sent s e n st now) = sentEmails s ++ [e] := by
  simp [sentEmails, mark_email_as_sent]

theorem companies_mark (s : SysState) (e n st now : String) :
    (mark_email_as_sent s e n st now).companies = s.companies := rfl

theorem sentEmails_foldl_mark (g : CompanyRow → String) (now : String)
    (b : List CompanyRow) (s : SysState) :
    sentEmails (b.foldl
        (fun st c => mark_email_as_sent st c.email c.company_name (g c) now) s)
      = sentEmails s ++ b.map (·.email) := by
  induction b generalizing s with
  | nil => simp
  | cons c cs ih =>
    simp only [List.foldl_cons, List.map_cons, ih, sentEmails_mark,
      List.append_assoc, List.singleton_append]

theorem companies_foldl_mark (g : CompanyRow → String) (now : String)
    (b : List CompanyRow) (s : SysState) :
    (b.foldl
        (fun st c => mark_email_as_sent st c.email c.company_name (g c) now) s).companies
      = s.companies := by
  induction b generalizing s with
  | nil => rfl
  | cons c cs ih => simp only [List.foldl_cons, ih, companies_mark]

theorem pendingRows_of_appended (s s' : SysState) (es : List String)
    (hc : s'.companies = s.companies) (hs : sentEmails s' = sentEmails s ++ es) :
    pendingRows s' = (pendingRows s).filter (fun c => !es.contains c.email) := by
  unfold pendingRows
  rw [hc, hs]
  simp only [List.filter_filter]
  apply List.filter_congr
  intro c _
  by_cases h1 : c.email ∈ sentEmails s <;> by_cases h2 : c.email ∈ es <;>
    simp [h1, h2]

theorem filter_not_mem_take {β : Type} [BEq β] [LawfulBEq β] (f : CompanyRow → β) :
    ∀ (P : List CompanyRow) (n : Nat), (P.map f).Nodup →
      P.filter (fun c => !((P.take n).map f).contains (f c)) = P.drop n := by
  intro P
  induction P with
  | nil => intro n _; simp
  | cons p ps ih =>
    intro n h
    cases n with
    | zero => simp
    | succ n =>
      simp only [List.take_succ_cons, List.map_cons, List.drop_succ_cons]
      have hp0 : f p ∉ ps.map f := by
        have h' := h
        simp only [List.map_cons, List.nodup_cons] at h'
        exact h'.1
      have hnd : (ps.map f).Nodup := by
        have h' := h
        simp only [List.map_cons, List.nodup_cons] at h'
        exact h'.2
      calc (p :: ps).filter (fun c => !((f p :: (ps.take n).map f).contains (f c)))
          = ps.filter (fun c => !((f p :: (ps.take n).map f).contains (f c))) := by
            simp [List.filter_cons]
        _ = ps.filter (fun c => !((ps.take n).map f).contains (f c)) := by
            apply List.filter_congr
            intro c hc
            have hne : (f c == f p) = false := by
              refine beq_eq_false_iff_ne.mpr ?_
              intro he
              exact hp0 (he ▸ List.mem_map_of_mem f hc)
            simp [List.contains_cons, hne]
        _ = ps.drop n := ih n hnd

theorem mem_sentEmails_applyOp (s : SysState) (a : String) (op : SysOp)
    (h : a ∈ sentEmails s) : a ∈ sentEmails (applyOp s op) := by
  cases op with
  | ingest companies city =>
    simpa [applyOp, sentEmails, save_companies_to_csv] using h
  | report e n st now =>
    simp only [applyOp, sentEmails_mark]
    exact List.mem_append_left _ h
  | dispatch sendOk now =>
    have hfold := sentEmails_foldl_mark
      (fun c => if sendOk c then "sent" else "failed") now
      (get_unsent_emails s 30) s
    simp only [applyOp, send_emails_job]
    rw [hfold]
    exact List.mem_append_left _ h

theorem mem_sentEmails_applyOps (s : SysState) (a : String) (ops : List SysOp)
    (h : a ∈ sentEmails s) : a ∈ sentEmails (applyOps s ops) := by
  induction ops generalizing s with
  | nil => simpa [applyOps] using h
  | cons op rest ih =>
    simp only [applyOps, List.foldl_cons]
    exact ih (applyOp s op) (mem_sentEmails_applyOp s a op h)

/-! Theorems settling the claims. -/

/-- C7: the contact validator rejects "support@foodics.comp" through the
known-corrupted `.comp` suffix entry of its denylist, rejects
"noreply@company.com" through the role-account entry — matched
case-insensitively as a substring, as the mixed-case variant shows — and
accepts "info@company.sa". -/
theorem validator_examples :
    validate_email "support@foodics.comp" = false ∧
    validate_email "noreply@company.com" = false ∧
    validate_email "NoReply@Company.com" = false ∧
    validate_email "info@company.sa" = true := by
  refine ⟨by decide, by decide, by decide, by decide⟩

/-- C8: for every backing-storage outcome that is missing, unreadable or not
a valid persisted snapshot, each category loader yields the empty cache, and
being a total function it cannot raise to the caller; a well-formed snapshot
loads its stored key-to-entry mapping unchanged. -/
theorem load_fail_open :
    (_load_visited_links .missing = [] ∧ _load_visited_links .unreadable = [] ∧
      _load_visited_links (.parsed none) = [] ∧
      ∀ m : LinksMap, _load_visited_links (.parsed (some m)) = m) ∧
    (_load_visited_companies .missing = [] ∧
      _load_visited_companies .unreadable = [] ∧
      _load_visited_companies (.parsed none) = [] ∧
      ∀ m : LinksMap, _load_visited_companies (.parsed (some m)) = m) ∧
    (_load_visited_searches .missing = [] ∧
      _load_visited_searches .unreadable = [] ∧
      _load_visited_searches (.parsed none) = [] ∧
      ∀ m : LinksMap, _load_visited_searches (.parsed (some m)) = m) :=
  ⟨⟨rfl, rfl, rfl, fun _ => rfl⟩, ⟨rfl, rfl, rfl, fun _ => rfl⟩,
    ⟨rfl, rfl, rfl, fun _ => rfl⟩⟩

/-- C6 counterexample: the source's `_normalize_url` strips every trailing
path separator (`rstrip('/')`), not a single one as the claim words it, so on
"http://example.com/path//" the code and the claim's pipeline disagree. -/
theorem normalizeLink_cex :
    _normalize_url "http://example.com/path//" = "http://example.com/path" ∧
    specNormalizeLink "http://example.com/path//" = "http://example.com/path/" ∧
    _normalize_url "http://example.com/path//" ≠
      specNormalizeLink "http://example.com/path//" := by
  refine ⟨by decide, by decide, by decide⟩

/-- C6 amended: `_normalize_url` lower-cases, trims surrounding whitespace,
strips every trailing path separator and drops everything from the first
question mark onward; the claim's collision example still produces one key. -/
theorem normalizeLink_amended :
    (∀ url, _normalize_url url = specNormalizeLinkAmended url) ∧
    _normalize_url "HTTP://Example.com/path/" =
      _normalize_url "http://example.com/path" := by
  constructor
  · intro url
    by_cases h : url = ""
    · subst h; rfl
    · simp only [_normalize_url, specNormalizeLinkAmended, if_neg h]
      by_cases hq : (rstripSlashes (pyStrip (asciiLower url))).data.contains '?'
      · rw [if_pos hq]
      · rw [if_neg hq]
        have ht := takeWhile_of_not_contains '?'
          (rstripSlashes (pyStrip (asciiLower url))).data
          (by simpa using hq)
        rw [ht]
  · decide

/-- C2 counterexample: reporting an outcome twice for the same address is
silently accepted by `mark_email_as_sent` — the second call returns normally
(the operation is a total function with no error result) and simply appends a
second outcome row for the address, instead of surfacing a state-consistency
error; there is also no `attemptCount` field, the row multiplicity is all the
state there is. -/
theorem reportOutcome_cex :
    (let s0 : SysState := { companies := [exRow "A" "a@x.com"], sent := [] }
     let s1 := mark_email_as_sent s0 "a@x.com" "A" "sent" "d1"
     let s2 := mark_email_as_sent s1 "a@x.com" "A" "sent" "d2"
     countSentRows s1 "a@x.com" = 1 ∧
     s1.sent.map (·.status) = ["sent"] ∧
     countSentRows s2 "a@x.com" = 2) := by
  refine ⟨by decide, by decide, by decide⟩

/-- C2 amended: `mark_email_as_sent` never reports an error: for every prior
state it returns normally and appends exactly one outcome row, whether or not
the address already has a recorded outcome; a single successful report adds
the one row with status "sent" for the address, and a repeated report for the
same address is silently accepted and leaves two more rows than before. -/
theorem reportOutcome_amended (s : SysState) (e n st now : String) :
    (mark_email_as_sent s e n st now).sent = s.sent ++ [⟨e, n, now, st⟩] ∧
    countSentRows (mark_email_as_sent s e n "sent" now) e
      = countSentRows s e + 1 ∧
    ∀ n' st' now', countSentRows
        (mark_email_as_sent (mark_email_as_sent s e n st now) e n' st' now') e
      = countSentRows s e + 2 := by
  refine ⟨rfl, ?_, ?_⟩
  · simp [countSentRows, mark_email_as_sent, List.filter_append]
  · intro n' st' now'
    simp [countSentRows, mark_email_as_sent, List.filter_append]

/-- C3 counterexample: two candidates carrying the same address inside one
ingestion batch are both admitted — the duplicate check consults only the
rows stored before the call — so one call leaves two records for
"a@b.com" instead of one. -/
theorem ingest_unique_cex :
    countCompanyRows
      ((save_companies_to_csv { companies := [], sent := [] }
          [⟨"A", "a@b.com", "u1"⟩, ⟨"B", "a@b.com", "u2"⟩] "X").companies)
      "a@b.com" = 2 := by
  decide

/-- C3 amended: uniqueness holds across calls — an address already stored in
the companies file is never re-admitted by a later `save_companies_to_csv`
call, whatever candidates and owning companies arrive — but duplicates inside
a single ingestion batch are not caught. -/
theorem ingest_unique_amended (s : SysState) (companies : List InCompany)
    (city e : String) (h : e ∈ s.companies.map (·.email)) :
    countCompanyRows (save_companies_to_csv s companies city).companies e
      = countCompanyRows s.companies e := by
  unfold save_companies_to_csv countCompanyRows
  simp only [List.filter_append, List.length_append]
  have hnil : (((companies.filter
        (fun c => !(s.companies.map (·.email)).contains c.email)).map
      (fun c => CompanyRow.mk c.name c.email c.url city
        (get_country_from_city city))).filter (fun c => c.email == e)) = [] := by
    apply List.filter_eq_nil_iff.mpr
    intro a ha
    simp only [List.mem_map] at ha
    obtain ⟨c, hc, rfl⟩ := ha
    have hcn : c.email ∉ s.companies.map (·.email) := by
      have := (List.mem_filter.mp hc).2
      simpa using this
    intro habs
    have he : c.email = e := by simpa using habs
    exact hcn (he.symm ▸ h)
  rw [hnil]
  simp

/-- C3 amended, witness. -/
theorem ingest_unique_amended_witness :
    countCompanyRows
      ((save_companies_to_csv { companies := [exRow "A" "a@x.com"], sent := [] }
          [⟨"Z", "a@x.com", "u"⟩] "X").companies) "a@x.com"
      = countCompanyRows [exRow "A" "a@x.com"] "a@x.com" :=
  ingest_unique_amended { companies := [exRow "A" "a@x.com"], sent := [] }
    [⟨"Z", "a@x.com", "u"⟩] "X" "a@x.com" (by decide)

/-- C4: for an identifier with a non-empty normalized key that is not yet in
the store, the first mark (without metadata) inserts an entry with
`visit_count = 1`, the second mark increments it to 2 and refreshes the
timestamp while the number of keys stays what it was after the first call,
and `is_link_visited` answers true after either call (checked at any instant
at which the recorded timestamps are not yet expired). -/
theorem markVisited_twice (links : LinksMap) (ed now now1 now2 : Int)
    (url scr1 scr2 : String)
    (hkey : _normalize_url url ≠ "")
    (habsent : List.lookup (_normalize_url url) links = none)
    (hfresh1 : _is_expired ed now (.i now1) = false)
    (hfresh2 : _is_expired ed now (.i now2) = false) :
    ∃ l1 l2,
      mark_link_visited links now1 url scr1 none = some l1 ∧
      mark_link_visited l1 now2 url scr2 none = some l2 ∧
      (List.lookup (_normalize_url url) l1).bind (List.lookup "visit_count")
        = some (.i 1) ∧
      (List.lookup (_normalize_url url) l1).bind (List.lookup "timestamp")
        = some (.i now1) ∧
      (List.lookup (_normalize_url url) l2).bind (List.lookup "visit_count")
        = some (.i 2) ∧
      (List.lookup (_normalize_url url) l2).bind (List.lookup "timestamp")
        = some (.i now2) ∧
      l1.length = links.length + 1 ∧
      l2.length = l1.length ∧
      (is_link_visited l1 ed now url).1 = true ∧
      (is_link_visited l2 ed now url).1 = true := by
  refine ⟨assocSet links (_normalize_url url)
      [("timestamp", .i now1), ("scraper", .s scr1), ("visit_count", .i 1)],
    assocSet (assocSet links (_normalize_url url)
      [("timestamp", .i now1), ("scraper", .s scr1), ("visit_count", .i 1)])
      (_normalize_url url)
      [("timestamp", .i now2), ("scraper", .s scr2), ("visit_count", .i 2)],
    ?_, ?_, ?_, ?_, ?_, ?_, ?_, ?_, ?_, ?_⟩
  · simp only [mark_link_visited, if_neg hkey, habsent, Option.getD_none]
    rfl
  · simp only [mark_link_visited, if_neg hkey, lookup_assocSet_self,
      Option.getD_some]
    rfl
  · rw [lookup_assocSet_self]; rfl
  · rw [lookup_assocSet_self]; rfl
  · rw [lookup_assocSet_self]; rfl
  · rw [lookup_assocSet_self]; rfl
  · exact length_assocSet_of_none links _ _ habsent
  · exact length_assocSet_of_some _ _ _ _ (lookup_assocSet_self links _ _)
  · simp only [is_link_visited, if_neg hkey, lookup_assocSet_self]
    simp [getTimestamp, hfresh1]
  · simp only [is_link_visited, if_neg hkey, lookup_assocSet_self]
    simp [getTimestamp, hfresh2]

/-- C4 witness: the conclusion at a concrete fresh URL, empty store, a
30-day retention window and marks on days 1 and 2 checked on day 3. -/
theorem markVisited_twice_witness :
    ∃ l1 l2,
      mark_link_visited [] 1 "http://a.com" "s1" none = some l1 ∧
      mark_link_visited l1 2 "http://a.com" "s2" none = some l2 ∧
      (List.lookup (_normalize_url "http://a.com") l1).bind
        (List.lookup "visit_count") = some (.i 1) ∧
      (List.lookup (_normalize_url "http://a.com") l1).bind
        (List.lookup "timestamp") = some (.i 1) ∧
      (List.lookup (_normalize_url "http://a.com") l2).bind
        (List.lookup "visit_count") = some (.i 2) ∧
      (List.lookup (_normalize_url "http://a.com") l2).bind
        (List.lookup "timestamp") = some (.i 2) ∧
      l1.length = ([] : LinksMap).length + 1 ∧
      l2.length = l1.length ∧
      (is_link_visited l1 30 3 "http://a.com").1 = true ∧
      (is_link_visited l2 30 3 "http://a.com").1 = true :=
  markVisited_twice [] 30 3 1 2 "http://a.com" "s1" "s2"
    (by decide) (by decide) (by decide) (by decide)

/-- C5: `is_link_visited` answers false when the normalized key is absent and
leaves the store unchanged; when the key is present (with a non-empty entry)
but the entry is expired it evicts the entry — the store shrinks by exactly
one — and answers false; when the entry is not expired it answers true and
leaves the store unchanged; and with `expire_days = 0` no value ever counts
as expired. -/
theorem isVisited_spec (links : LinksMap) (ed now : Int) (url : String)
    (hkey : _normalize_url url ≠ "") :
    (List.lookup (_normalize_url url) links = none →
      is_link_visited links ed now url = (false, links)) ∧
    (∀ entry, List.lookup (_normalize_url url) links = some entry →
      entry ≠ [] →
      (_is_expired ed now (getTimestamp entry) = true →
        is_link_visited links ed now url
          = (false, assocErase links (_normalize_url url)) ∧
        (assocErase links (_normalize_url url)).length + 1 = links.length) ∧
      (_is_expired ed now (getTimestamp entry) = false →
        is_link_visited links ed now url = (true, links))) ∧
    (∀ v, _is_expired 0 now v = false) := by
  refine ⟨?_, ?_, ?_⟩
  · intro habs
    simp [is_link_visited, if_neg hkey, habs]
  · intro entry hfound hne
    constructor
    · intro hexp
      constructor
      · simp [is_link_visited, if_neg hkey, hfound, hne, hexp]
      · exact length_assocErase_of_some links _ entry hfound
    · intro hexp
      simp [is_link_visited, if_neg hkey, hfound, hne, hexp]
  · intro v
    rfl

/-- C5 witness: an entry stamped on day 0 checked on day 5 under a one-day
retention window is evicted and reported not visited, shrinking the one-entry
store to the empty one. -/
theorem isVisited_spec_witness :
    is_link_visited [("http://a.com", [("timestamp", PyVal.i 0)])] 1 5
        "http://a.com"
      = (false, assocErase [("http://a.com", [("timestamp", PyVal.i 0)])]
          (_normalize_url "http://a.com")) ∧
    (assocErase [("http://a.com", [("timestamp", PyVal.i 0)])]
        (_normalize_url "http://a.com")).length + 1
      = ([("http://a.com", [("timestamp", PyVal.i 0)])] : LinksMap).length :=
  ((isVisited_spec [("http://a.com", [("timestamp", PyVal.i 0)])] 1 5
      "http://a.com" (by decide)).2.1 [("timestamp", PyVal.i 0)]
    (by decide) (by decide)).1 (by decide)

/-- C10: when a `mark_link_visited` call carries metadata binding
"visit_count" or "timestamp", the stored entry's value for that key is the
caller-supplied one — the metadata is merged with `dict.update` after the
maintained fields are set, so it overrides the incremented count and the
refreshed timestamp. -/
theorem metadata_overrides (links : LinksMap) (now : Int) (url scr : String)
    (md : Dict) (l' : LinksMap)
    (hkey : _normalize_url url ≠ "")
    (hmark : mark_link_visited links now url scr (some md) = some l') :
    (∀ v, List.lookup "visit_count" md = some v →
      (List.lookup (_normalize_url url) l').bind (List.lookup "visit_count")
        = some v) ∧
    (∀ w, List.lookup "timestamp" md = some w →
      (List.lookup (_normalize_url url) l').bind (List.lookup "timestamp")
        = some w) := by
  simp only [mark_link_visited, if_neg hkey] at hmark
  rcases hadd : pyAdd1 ((List.lookup "visit_count"
      ((List.lookup (_normalize_url url) links).getD [])).getD (.i 0)) with _ | cnt
  · rw [hadd] at hmark
    simp at hmark
  · rw [hadd] at hmark
    simp only [Option.some.injEq] at hmark
    subst hmark
    constructor
    · intro v hv
      rw [lookup_assocSet_self]
      exact lookup_append_of_some md _ _ v hv
    · intro w hw
      rw [lookup_assocSet_self]
      exact lookup_append_of_some md _ _ w hw

/-- C10 witness: marking a fresh URL with metadata binding `visit_count ↦ 7`
and `timestamp ↦ "T"` stores exactly those values. -/
theorem metadata_overrides_witness :
    (List.lookup (_normalize_url "http://a.com")
        [("http://a.com",
          dictUpdate
            [("timestamp", PyVal.i 3), ("scraper", PyVal.s "s"),
             ("visit_count", PyVal.i 1)]
            [("visit_count", PyVal.i 7), ("timestamp", PyVal.s "T")])]).bind
      (List.lookup "visit_count") = some (PyVal.i 7) ∧
    (List.lookup (_normalize_url "http://a.com")
        [("http://a.com",
          dictUpdate
            [("timestamp", PyVal.i 3), ("scraper", PyVal.s "s"),
             ("visit_count", PyVal.i 1)]
            [("visit_count", PyVal.i 7), ("timestamp", PyVal.s "T")])]).bind
      (List.lookup "timestamp") = some (PyVal.s "T") := by
  have h := metadata_overrides [] 3 "http://a.com" "s"
    [("visit_count", PyVal.i 7), ("timestamp", PyVal.s "T")]
    [("http://a.com",
      dictUpdate
        [("timestamp", PyVal.i 3), ("scraper", PyVal.s "s"),
         ("visit_count", PyVal.i 1)]
        [("visit_count", PyVal.i 7), ("timestamp", PyVal.s "T")])]
    (by decide) (by decide)
  exact ⟨h.1 (PyVal.i 7) (by decide), h.2 (PyVal.s "T") (by decide)⟩

/-- C1 counterexample: `get_unsent_emails` does not transition the records it
returns — it has no state output at all, its result is a pure function of the
two files — so with five pending records two sequential `get_unsent_emails 3`
calls evaluate to the same first three rows: the second call does not return
the remaining two, and the first row appears in both results. -/
theorem claimBatch_cex :
    get_unsent_emails exState5 3
      = [exRow "A" "a@x.com", exRow "B" "b@x.com", exRow "C" "c@x.com"] ∧
    get_unsent_emails exState5 3 ≠ [exRow "D" "d@x.com", exRow "E" "e@x.com"] ∧
    exRow "A" "a@x.com" ∈ get_unsent_emails exState5 3 := by
  refine ⟨by decide, by decide, by decide⟩

/-- C1 amended: with five pending records (distinct addresses),
`get_unsent_emails 3` returns the first three in ascending insertion order
and changes nothing; the remaining two are only returned by a second call
after an outcome has been recorded for each row of the first batch, and then
the two batches share no address. -/
theorem claimBatch_amended (s : SysState) (now : String)
    (h5 : (pendingRows s).length = 5)
    (hnd : ((pendingRows s).map (·.email)).Nodup) :
    (get_unsent_emails s 3).length = 3 ∧
    get_unsent_emails s 3 = (pendingRows s).take 3 ∧
    get_unsent_emails (claimThenReportAll s now) 3 = (pendingRows s).drop 3 ∧
    (get_unsent_emails (claimThenReportAll s now) 3).length = 2 ∧
    ∀ c ∈ get_unsent_emails (claimThenReportAll s now) 3,
      c.email ∉ (get_unsent_emails s 3).map (·.email) := by
  have hc : (claimThenReportAll s now).companies = s.companies :=
    companies_foldl_mark (fun _ => "sent") now (get_unsent_emails s 3) s
  have hsent : sentEmails (claimThenReportAll s now)
      = sentEmails s ++ (get_unsent_emails s 3).map (·.email) :=
    sentEmails_foldl_mark (fun _ => "sent") now (get_unsent_emails s 3) s
  have hpend : pendingRows (claimThenReportAll s now)
      = (pendingRows s).filter
          (fun c => !(((pendingRows s).take 3).map (·.email)).contains c.email) :=
    pendingRows_of_appended s _ _ hc hsent
  have hdrop : pendingRows (claimThenReportAll s now) = (pendingRows s).drop 3 := by
    rw [hpend]
    exact filter_not_mem_take (·.email) (pendingRows s) 3 hnd
  have hsecond : get_unsent_emails (claimThenReportAll s now) 3
      = (pendingRows s).drop 3 := by
    show (pendingRows (claimThenReportAll s now)).take 3 = (pendingRows s).drop 3
    rw [hdrop]
    apply List.take_of_length_le
    simp [List.length_drop, h5]
  refine ⟨?_, rfl, hsecond, ?_, ?_⟩
  · simp [get_unsent_emails, List.length_take, h5]
  · rw [hsecond]
    simp [List.length_drop, h5]
  · intro c hcm
    have hcp : c ∈ pendingRows (claimThenReportAll s now) :=
      List.take_subset _ _ hcm
    rw [hpend] at hcp
    have hfilter := (List.mem_filter.mp hcp).2
    simpa [get_unsent_emails] using hfilter

/-- C1 amended, witness: the scenario on the concrete five-record state. -/
theorem claimBatch_amended_witness :
    (get_unsent_emails exState5 3).length = 3 ∧
    get_unsent_emails exState5 3 = (pendingRows exState5).take 3 ∧
    get_unsent_emails (claimThenReportAll exState5 "t") 3
      = (pendingRows exState5).drop 3 ∧
    (get_unsent_emails (claimThenReportAll exState5 "t") 3).length = 2 ∧
    ∀ c ∈ get_unsent_emails (claimThenReportAll exState5 "t") 3,
      c.email ∉ (get_unsent_emails exState5 3).map (·.email) :=
  claimBatch_amended exState5 "t" (by decide) (by decide)

/-- C9: once any outcome row — "sent" or "failed" alike — has been recorded
for an address, every later `get_unsent_emails` batch excludes that address,
whatever public operations (ingestion, outcome reports, dispatch jobs) run in
between: no operation of the system removes rows from the sent file. -/
theorem outcome_permanent_exclusion (s : SysState) (e n st now : String)
    (ops : List SysOp) (limit : Nat) :
    ∀ c ∈ get_unsent_emails
        (applyOps (mark_email_as_sent s e n st now) ops) limit,
      c.email ≠ e := by
  intro c hc hce
  have hmem : e ∈ sentEmails (applyOps (mark_email_as_sent s e n st now) ops) := by
    apply mem_sentEmails_applyOps
    rw [sentEmails_mark]
    exact List.mem_append_right _ (by simp)
  have hcp : c ∈ pendingRows (applyOps (mark_email_as_sent s e n st now) ops) :=
    List.take_subset _ _ hc
  unfold pendingRows at hcp
  have hfilter := (List.mem_filter.mp hcp).2
  rw [hce] at hfilter
  simp at hfilter
  exact hfilter hmem

/-- C9 witness: after a failed outcome for "a@x.com" and no further
operations, the pending batch still contains the other record and the
excluded address indeed differs from it. -/
theorem outcome_permanent_exclusion_witness :
    exRow "B" "b@x.com" ∈ get_unsent_emails
      (applyOps (mark_email_as_sent
        { companies := [exRow "A" "a@x.com", exRow "B" "b@x.com"], sent := [] }
        "a@x.com" "A" "failed" "d") []) 30 ∧
    (exRow "B" "b@x.com").email ≠ "a@x.com" :=
  ⟨by decide,
    outcome_permanent_exclusion
      { companies := [exRow "A" "a@x.com", exRow "B" "b@x.com"], sent := [] }
      "a@x.com" "A" "failed" "d" [] 30 (exRow "B" "b@x.com") (by decide)⟩

end CVAuto
